import Mathlib

/-!
# Verification of the Drishti AI Navigator backend against its specification

Shallow embedding of the order store (`backend/database.py`), the order
queue (`backend/order_queue.py`), the automation agents
(`backend/agents/nova_act_agent.py`, `backend/agents/strands_agent.py`)
and the browser session service (`backend/services/browser_service.py`),
with theorems settling the behavioural claims of the specification.

Datetimes are modelled as natural numbers (seconds since an arbitrary
epoch); database ids as natural numbers (only equality is used on them in
the embedded code paths).
-/

namespace Drishti

/-! ## Order store (`backend/database.py`) -/

/-- Enum `OrderStatus` of `database.py`. -/
inductive OrderStatus where
  | PENDING
  | PROCESSING
  | COMPLETED
  | FAILED
  | CANCELLED
  | REQUIRES_HUMAN
  | MANUAL_CONTROL
deriving DecidableEq, Repr

/-- Row of the `orders` table (`OrderModel`), restricted to the columns the
embedded operations read or write.  Omitted columns (retailer, product and
customer data, progress, confirmation/tracking numbers, error message,
`requires_human_review`, session replay fields, `session_id`) are
independent field overwrites in the source and play no part in status or
timestamp behaviour.  `priority` holds the integer value of the
`OrderPriority` enum (LOW=1 … URGENT=4). -/
structure OrderModel where
  id : Nat
  status : OrderStatus
  priority : Nat
  created_at : Nat
  updated_at : Nat
  started_at : Option Nat
  completed_at : Option Nat
deriving DecidableEq, Repr

/-- The order store: the rows of the `orders` table, in insertion order. -/
abbrev OrderStore := List OrderModel

/-- The SQL ordering `ORDER BY priority DESC, created_at ASC` used by
`get_next_order`: `a` sorts strictly before `b`. -/
def ordersBefore (a b : OrderModel) : Bool :=
  b.priority < a.priority ∨ (a.priority = b.priority ∧ a.created_at < b.created_at)

/-- Result of `.first()` on a query ordered by `ordersBefore`: the first row (in table
order) that no other row strictly precedes. -/
def selectFirst : List OrderModel → Option OrderModel
  | [] => none
  | o :: rest =>
    match selectFirst rest with
    | none => some o
    | some b => if ordersBefore b o then some b else some o

/-- The in-transaction mutation `get_next_order` applies to the selected row:
`status = PROCESSING`, `updated_at = now`, `started_at = now`. -/
def claimRow (now : Nat) (o : OrderModel) : OrderModel :=
  { o with
      status := OrderStatus.PROCESSING
      updated_at := now
      started_at := some now }

/-- Method `DatabaseManager.get_next_order`: select the first `PENDING` row by
`(priority desc, created_at asc)`, and in the same transaction mark it
`PROCESSING`, stamping `updated_at` and `started_at` with the current time;
return the updated row.  With no `PENDING` row, return `none` and leave the
store untouched.  (`id` is the table's primary key, so the row update is
rendered as a map over the rows with the selected id.) -/
def get_next_order (now : Nat) (store : OrderStore) : Option OrderModel × OrderStore :=
  match selectFirst (store.filter (fun o => o.status = OrderStatus.PENDING)) with
  | some order_model =>
    (some (claimRow now order_model),
     store.map (fun o => if o.id = order_model.id then claimRow now o else o))
  | none => (none, store)

end Drishti

namespace Drishti

/-! ### Facts about `selectFirst` -/

theorem selectFirst_mem {l : List OrderModel} {o : OrderModel}
    (h : selectFirst l = some o) : o ∈ l := by
  induction l with
  | nil => simp [selectFirst] at h
  | cons a rest ih =>
    simp only [selectFirst] at h
    cases hrest : selectFirst rest with
    | none => rw [hrest] at h; simp only [Option.some.injEq] at h; simp [← h]
    | some b =>
      rw [hrest] at h
      by_cases hb : ordersBefore b a
      · simp only [hb, if_pos, Option.some.injEq] at h
        exact List.mem_cons_of_mem _ (ih (h ▸ hrest))
      · simp only [hb, Bool.false_eq_true, if_false, Option.some.injEq] at h
        simp [← h]

theorem selectFirst_eq_none {l : List OrderModel} :
    selectFirst l = none ↔ l = [] := by
  cases l with
  | nil => simp [selectFirst]
  | cons a rest =>
    simp only [selectFirst]
    constructor
    · intro h
      cases hrest : selectFirst rest <;> rw [hrest] at h <;> simp at h
      split at h <;> simp_all
    · intro h; simp at h

theorem selectFirst_minimal {l : List OrderModel} {o : OrderModel}
    (h : selectFirst l = some o) : ∀ x ∈ l, ¬ ordersBefore x o := by
  induction l generalizing o with
  | nil => simp [selectFirst] at h
  | cons a rest ih =>
    simp only [selectFirst] at h
    cases hrest : selectFirst rest with
    | none =>
      rw [hrest] at h
      simp only [Option.some.injEq] at h
      subst h
      intro x hx
      rcases List.mem_cons.1 hx with rfl | hx'
      · simp only [ordersBefore, decide_eq_true_eq]
        omega
      · rw [selectFirst_eq_none] at hrest
        subst hrest
        simp at hx'
    | some b =>
      rw [hrest] at h
      by_cases hb : ordersBefore b a
      · simp only [hb, if_pos, Option.some.injEq] at h
        subst h
        intro x hx
        rcases List.mem_cons.1 hx with rfl | hx'
        · simp only [ordersBefore, decide_eq_true_eq] at hb ⊢
          omega
        · exact ih hrest x hx'
      · simp only [hb, Bool.false_eq_true, if_false, Option.some.injEq] at h
        subst h
        intro x hx
        rcases List.mem_cons.1 hx with rfl | hx'
        · simp only [ordersBefore, decide_eq_true_eq]
          omega
        · intro hxo
          have hbx := ih hrest x hx'
          simp only [ordersBefore, decide_eq_true_eq] at hb hbx hxo
          omega

/-- Case analysis on the result of `get_next_order`. -/
theorem get_next_order_cases (now : Nat) (store : OrderStore) :
    (∃ om, selectFirst (store.filter (fun o => o.status = OrderStatus.PENDING)) = some om ∧
       get_next_order now store =
         (some (claimRow now om),
          store.map (fun o => if o.id = om.id then claimRow now o else o))) ∨
    (selectFirst (store.filter (fun o => o.status = OrderStatus.PENDING)) = none ∧
       get_next_order now store = (none, store)) := by
  cases h : selectFirst (store.filter (fun o => o.status = OrderStatus.PENDING)) with
  | none => right; refine ⟨rfl, ?_⟩; unfold get_next_order; rw [h]
  | some om => left; refine ⟨om, rfl, ?_⟩; unfold get_next_order; rw [h]

/-- Post-condition of a successful claim: the returned order `o` corresponds
to a `PENDING` row of `store` that is maximal under
`(priority desc, created_at asc)`; it is returned already marked
`PROCESSING` with `started_at` set to the claim time; in the new store every
row with its id is `PROCESSING` with `started_at` set, all other rows are
untouched; and a subsequent call on the new store can never claim an order
with the same id again. -/
def NextOrderPost (now : Nat) (store : OrderStore) (o : OrderModel)
    (s' : OrderStore) : Prop :=
  (∃ p ∈ store, p.id = o.id ∧ p.status = OrderStatus.PENDING ∧
     ∀ q ∈ store, q.status = OrderStatus.PENDING →
       q.priority < p.priority ∨
         (q.priority = p.priority ∧ p.created_at ≤ q.created_at)) ∧
  o.status = OrderStatus.PROCESSING ∧ o.started_at = some now ∧ o.updated_at = now ∧
  (∀ r ∈ s', r.id = o.id →
     r.status = OrderStatus.PROCESSING ∧ r.started_at = some now) ∧
  (∀ r ∈ store, r.id ≠ o.id → r ∈ s') ∧
  (∀ now2 o2 s2, get_next_order now2 s' = (some o2, s2) → o2.id ≠ o.id)

/-- C1: `get_next_order` selects among the `PENDING` orders the one with
maximal priority (ties broken by earliest `created_at`), marks it
`PROCESSING` with `started_at` set in the same atomic claim step and returns
it; with no `PENDING` order it returns `none` and leaves the store
unchanged; and a second (serialised) claim on the resulting store never
claims the same order again, so at most one of two claim transactions
obtains any given order. -/
theorem get_next_order_spec :
    (∀ now store o s', get_next_order now store = (some o, s') →
       NextOrderPost now store o s') ∧
    (∀ now store, (∀ p ∈ store, p.status ≠ OrderStatus.PENDING) →
       get_next_order now store = (none, store)) := by
  constructor
  · intro now store o s' h
    rcases get_next_order_cases now store with ⟨om, hsel, heq⟩ | ⟨hsel, heq⟩
    · rw [heq] at h
      obtain ⟨ho, hs'⟩ : claimRow now om = o ∧
          store.map (fun x => if x.id = om.id then claimRow now x else x) = s' := by
        constructor
        · exact Option.some.inj (congrArg Prod.fst h)
        · exact congrArg Prod.snd h
      have hmem : om ∈ store.filter (fun x => x.status = OrderStatus.PENDING) :=
        selectFirst_mem hsel
      have hom_store : om ∈ store := List.mem_of_mem_filter hmem
      have hom_pending : om.status = OrderStatus.PENDING := by
        have := List.of_mem_filter hmem
        simpa using this
      have hoid : o.id = om.id := by rw [← ho]; rfl
      refine ⟨⟨om, hom_store, hoid.symm, hom_pending, ?_⟩, ?_, ?_, ?_, ?_, ?_, ?_⟩
      · intro q hq hqpend
        have hqf : q ∈ store.filter (fun x => x.status = OrderStatus.PENDING) :=
          List.mem_filter.2 ⟨hq, by simpa using hqpend⟩
        have := selectFirst_minimal hsel q hqf
        simp only [ordersBefore, decide_eq_true_eq] at this
        omega
      · rw [← ho]; rfl
      · rw [← ho]; rfl
      · rw [← ho]; rfl
      · intro r hr hrid
        rw [← hs'] at hr
        rcases List.mem_map.1 hr with ⟨x, hx, hxr⟩
        by_cases hxid : x.id = om.id
        · simp only [hxid, if_pos] at hxr
          rw [← hxr]; exact ⟨rfl, rfl⟩
        · simp only [hxid, if_neg] at hxr
          rw [← hxr] at hrid
          rw [hoid] at hrid
          exact absurd hrid hxid
      · intro r hr hrid
        rw [← hs']
        refine List.mem_map.2 ⟨r, hr, ?_⟩
        rw [hoid] at hrid
        simp [hrid]
      · intro now2 o2 s2 h2
        rcases get_next_order_cases now2 s' with ⟨om2, hsel2, heq2⟩ | ⟨hsel2, heq2⟩
        · rw [heq2] at h2
          have ho2 : claimRow now2 om2 = o2 := Option.some.inj (congrArg Prod.fst h2)
          have hmem2 : om2 ∈ s'.filter (fun x => x.status = OrderStatus.PENDING) :=
            selectFirst_mem hsel2
          have hom2_s' : om2 ∈ s' := List.mem_of_mem_filter hmem2
          have hom2_pending : om2.status = OrderStatus.PENDING := by
            have := List.of_mem_filter hmem2
            simpa using this
          rw [← hs'] at hom2_s'
          rcases List.mem_map.1 hom2_s' with ⟨x, _, hxr⟩
          have ho2id : o2.id = om2.id := by rw [← ho2]; rfl
          rw [ho2id, hoid]
          by_cases hxid : x.id = om.id
          · exfalso
            simp only [hxid, if_pos] at hxr
            rw [← hxr] at hom2_pending
            simp [claimRow] at hom2_pending
          · simp only [hxid, if_neg] at hxr
            rw [← hxr]
            exact hxid
        · rw [heq2] at h2
          simp at h2
    · rw [heq] at h
      simp at h
  · intro now store hnone
    rcases get_next_order_cases now store with ⟨om, hsel, _⟩ | ⟨_, heq⟩
    · exfalso
      have hmem := selectFirst_mem hsel
      have hom_store : om ∈ store := List.mem_of_mem_filter hmem
      have hom_pending : om.status = OrderStatus.PENDING := by
        have := List.of_mem_filter hmem
        simpa using this
      exact hnone om hom_store hom_pending
    · exact heq

/-- A concrete store exercising the claim: two `URGENT` (priority 4)
pending orders with different creation times, one lower-priority pending
order, and one already-processing order. -/
def c1Store : OrderStore :=
  [⟨1, OrderStatus.PENDING, 2, 10, 10, none, none⟩,
   ⟨2, OrderStatus.PENDING, 4, 20, 20, none, none⟩,
   ⟨3, OrderStatus.PENDING, 4, 5, 5, none, none⟩,
   ⟨4, OrderStatus.PROCESSING, 4, 1, 2, some 2, none⟩]

def c1Claimed : OrderModel := ⟨3, OrderStatus.PROCESSING, 4, 5, 100, some 100, none⟩

def c1StoreAfter : OrderStore :=
  [⟨1, OrderStatus.PENDING, 2, 10, 10, none, none⟩,
   ⟨2, OrderStatus.PENDING, 4, 20, 20, none, none⟩,
   ⟨3, OrderStatus.PROCESSING, 4, 5, 100, some 100, none⟩,
   ⟨4, OrderStatus.PROCESSING, 4, 1, 2, some 2, none⟩]

def c1Exhausted : OrderStore := [⟨9, OrderStatus.COMPLETED, 2, 1, 3, some 1, some 2⟩]

theorem get_next_order_spec_witness :
    NextOrderPost 100 c1Store c1Claimed c1StoreAfter ∧
    get_next_order 100 c1Exhausted = (none, c1Exhausted) :=
  ⟨get_next_order_spec.1 100 c1Store c1Claimed c1StoreAfter (by decide),
   get_next_order_spec.2 100 c1Exhausted (by decide)⟩

/-! ### `DatabaseManager.update_order_status` and `DatabaseManager.cancel_order` -/

/-- The mutation `update_order_status` applies to the row it found: the new
status and `updated_at` are always written; then `started_at` is stamped only
when the new status is `PROCESSING` *and* `started_at` is still unset
(`if status == OrderStatus.PROCESSING and not order_model.started_at`),
while `completed_at` is stamped unconditionally whenever the new status is
one of `COMPLETED`, `FAILED`, `CANCELLED` (the `elif status in [...]`
branch has no corresponding `not order_model.completed_at` guard).
Optional keyword columns (progress, current step, confirmation/tracking
numbers, error message, review flag, session id) are independent overwrites
omitted here. -/
def applyStatusUpdate (now : Nat) (status : OrderStatus) (o : OrderModel) :
    OrderModel :=
  let o1 := { o with status := status, updated_at := now }
  if status = OrderStatus.PROCESSING ∧ o.started_at = none then
    { o1 with started_at := some now }
  else if status ∈ [OrderStatus.COMPLETED, OrderStatus.FAILED,
                    OrderStatus.CANCELLED] then
    { o1 with completed_at := some now }
  else o1

/-- Method `DatabaseManager.update_order_status`: look the order up by id (raising
`ValueError`, i.e. `Except.error`, when absent), apply the status/timestamp
mutation to it and commit. -/
def update_order_status (now : Nat) (order_id : Nat) (status : OrderStatus)
    (store : OrderStore) : Except String OrderStore :=
  match store.find? (fun o => o.id = order_id) with
  | none => Except.error "Order not found"
  | some _ =>
    Except.ok (store.map fun o =>
      if o.id = order_id then applyStatusUpdate now status o else o)

/-- Method `DatabaseManager.cancel_order`: a single
`UPDATE orders SET status = CANCELLED, updated_at = now
WHERE id = order_id AND status = PENDING`; returns whether a row was hit
(`result > 0`). -/
def cancel_order (now : Nat) (order_id : Nat) (store : OrderStore) :
    OrderStore × Bool :=
  (store.map fun o =>
     if o.id = order_id ∧ o.status = OrderStatus.PENDING then
       { o with status := OrderStatus.CANCELLED, updated_at := now }
     else o,
   store.any fun o => o.id = order_id ∧ o.status = OrderStatus.PENDING)

/-! ## Order queue (`backend/order_queue.py`) -/

/-- Enum `QueueStatus` of `order_queue.py`. -/
inductive QueueStatus where
  | RUNNING
  | PAUSED
  | STOPPED
deriving DecidableEq, Repr

/-- The mutable state of `OrderQueue` relevant to scheduling:
`status`, the active-task map `processing_orders` (rendered as the list of
its keys — dict keys are unique, and only membership, insertion, deletion
and length are used), the `max_concurrent` ceiling, and the backing order
store. -/
structure QueueState where
  status : QueueStatus
  processing_orders : List Nat
  max_concurrent : Nat
  store : OrderStore
deriving Repr

/-- Dict insertion `self.processing_orders[order.id] = task`:  — a fresh key
grows the map by one entry, an existing key is overwritten in place. -/
def dictInsert (order_id : Nat) (keys : List Nat) : List Nat :=
  if order_id ∈ keys then keys else order_id :: keys

/-- Guarded dict deletion
`if order_id in self.processing_orders: ... del self.processing_orders[order_id]`:
dict deletion of the key when present. -/
def dictDelete (order_id : Nat) (keys : List Nat) : List Nat :=
  keys.filter (fun k => k ≠ order_id)

/-- One iteration of the dispatcher loop `OrderQueue._process_queue`:
when the queue is `RUNNING` and strictly below the `max_concurrent`
ceiling, claim the next pending order through
`DatabaseManager.get_next_order` and register a per-order task for it;
otherwise (paused, stopped, or at capacity — and likewise when no pending
order exists) idle-wait.  Afterwards `_cleanup_completed_tasks` drops the
tasks that have finished (`done` tells which task ids have). -/
def process_queue_step (now : Nat) (done : Nat → Bool) (q : QueueState) :
    QueueState :=
  let q1 :=
    if q.status = QueueStatus.RUNNING ∧
        q.processing_orders.length < q.max_concurrent then
      match get_next_order now q.store with
      | (some order, store') =>
        { q with
            store := store'
            processing_orders := dictInsert order.id q.processing_orders }
      | (none, store') => { q with store := store' }
    else q
  { q1 with
      processing_orders := q1.processing_orders.filter (fun k => ! done k) }

/-- Method `OrderQueue.cancel_order`: cancel and await the in-flight task for the
id (when one is registered) and drop it from the active-task map, then
return `DatabaseManager.cancel_order`'s store-level result. -/
def OrderQueue.cancel_order (now : Nat) (order_id : Nat) (q : QueueState) :
    QueueState × Bool :=
  let q1 := { q with processing_orders := dictDelete order_id q.processing_orders }
  let (store', hit) := Drishti.cancel_order now order_id q.store
  ({ q1 with store := store' }, hit)

/-- C6: store-level `cancel_order` returns `true` exactly when a `PENDING`
row with the given id exists; it turns such a row `CANCELLED` and leaves
every non-`PENDING` row untouched; queue-level `OrderQueue.cancel_order`
drops the in-flight task for the id from the active-task map and returns
the store-level result on the store-level updated store. -/
theorem cancel_order_spec :
    (∀ now order_id store,
       ((cancel_order now order_id store).2 = true ↔
         ∃ o ∈ store, o.id = order_id ∧ o.status = OrderStatus.PENDING)) ∧
    (∀ now order_id store o, o ∈ store → o.id = order_id →
       o.status = OrderStatus.PENDING →
       { o with status := OrderStatus.CANCELLED, updated_at := now } ∈
         (cancel_order now order_id store).1) ∧
    (∀ now order_id store o, o ∈ store → o.status ≠ OrderStatus.PENDING →
       o ∈ (cancel_order now order_id store).1) ∧
    (∀ now order_id q,
       (OrderQueue.cancel_order now order_id q).2 =
           (cancel_order now order_id q.store).2 ∧
       (OrderQueue.cancel_order now order_id q).1.store =
           (cancel_order now order_id q.store).1 ∧
       order_id ∉ (OrderQueue.cancel_order now order_id q).1.processing_orders) := by
  refine ⟨?_, ?_, ?_, ?_⟩
  · intro now order_id store
    simp [cancel_order]
  · intro now order_id store o hmem hid hpend
    refine List.mem_map.2 ⟨o, hmem, ?_⟩
    rw [if_pos ⟨hid, hpend⟩]
  · intro now order_id store o hmem hnp
    refine List.mem_map.2 ⟨o, hmem, ?_⟩
    rw [if_neg]
    intro hc
    exact hnp hc.2
  · intro now order_id q
    refine ⟨rfl, rfl, ?_⟩
    show order_id ∉ dictDelete order_id q.processing_orders
    simp [dictDelete]

/-- Singleton store for the C7 counterexample: one order already
`PROCESSING` with `started_at = 1`. -/
def c7Store : OrderStore := [⟨5, OrderStatus.PROCESSING, 2, 0, 1, some 1, none⟩]

/-- C7 (counterexample): updating the order to `FAILED` at time 10 stamps
`completed_at = 10`; a second terminal update, to `CANCELLED` at time 20,
*overwrites* it with `completed_at = 20` — `update_order_status` has no
`not order_model.completed_at` guard, so `completed_at` is not set at most
once.  Likewise for `started_at`: once the order is reset to `PENDING`
(the retry endpoint `POST /api/orders/{order_id}/retry` in `app.py` does
exactly this for failed or cancelled orders) the next `get_next_order` claim
overwrites `started_at = some 1` with the new claim time `some 30`. -/
theorem completed_at_overwritten :
    (update_order_status 10 5 OrderStatus.FAILED c7Store =
      Except.ok [⟨5, OrderStatus.FAILED, 2, 0, 10, some 1, some 10⟩]) ∧
    (update_order_status 20 5 OrderStatus.CANCELLED
        [⟨5, OrderStatus.FAILED, 2, 0, 10, some 1, some 10⟩] =
      Except.ok [⟨5, OrderStatus.CANCELLED, 2, 0, 20, some 1, some 20⟩]) ∧
    (update_order_status 25 5 OrderStatus.PENDING
        [⟨5, OrderStatus.CANCELLED, 2, 0, 20, some 1, some 20⟩] =
      Except.ok [⟨5, OrderStatus.PENDING, 2, 0, 25, some 1, some 20⟩]) ∧
    (get_next_order 30 [⟨5, OrderStatus.PENDING, 2, 0, 25, some 1, some 20⟩] =
      (some ⟨5, OrderStatus.PROCESSING, 2, 0, 30, some 30, some 20⟩,
       [⟨5, OrderStatus.PROCESSING, 2, 0, 30, some 30, some 20⟩])) := by
  refine ⟨rfl, rfl, rfl, rfl⟩

/-- C7 (amended): `started_at` is written by `update_order_status` only on
a transition into `PROCESSING` when it is still unset, and once set it is
never overwritten by any later status update; `completed_at`, by contrast,
is stamped with the current time on *every* update to a terminal status
(`COMPLETED`/`FAILED`/`CANCELLED`) — so it is set when the order first
reaches a terminal status but is overwritten if a further terminal update
occurs — and is left unchanged by non-terminal updates.  `get_next_order`,
for its part, stamps `started_at` with the claim time unconditionally, so
an order reset to `PENDING` and claimed again gets a fresh `started_at`. -/
theorem update_order_status_timestamps :
    (∀ now status (o : OrderModel) t, o.started_at = some t →
       (applyStatusUpdate now status o).started_at = some t) ∧
    (∀ now status (o : OrderModel), o.started_at = none →
       (applyStatusUpdate now status o).started_at =
         if status = OrderStatus.PROCESSING then some now else none) ∧
    (∀ now status (o : OrderModel),
       status ∈ [OrderStatus.COMPLETED, OrderStatus.FAILED,
                 OrderStatus.CANCELLED] →
       (applyStatusUpdate now status o).completed_at = some now) ∧
    (∀ now status (o : OrderModel),
       status ∉ [OrderStatus.COMPLETED, OrderStatus.FAILED,
                 OrderStatus.CANCELLED] →
       (applyStatusUpdate now status o).completed_at = o.completed_at) ∧
    (∀ now order_id status store store',
       update_order_status now order_id status store = Except.ok store' →
       (∀ o ∈ store, o.id = order_id → applyStatusUpdate now status o ∈ store') ∧
       (∀ o ∈ store, o.id ≠ order_id → o ∈ store')) ∧
    (∀ now (o : OrderModel), (claimRow now o).started_at = some now) := by
  refine ⟨?_, ?_, ?_, ?_, ?_, fun now o => rfl⟩
  · intro now status o t hst
    unfold applyStatusUpdate
    split
    · next hc => rw [hc.2] at hst; cases hst
    · split <;> exact hst
  · intro now status o hst
    unfold applyStatusUpdate
    split
    · next hc => simp [hc.1]
    · next hc =>
        split
        · next hterm =>
            have : ¬ status = OrderStatus.PROCESSING := by
              intro h; subst h; simp at hterm
            simp [this, hst]
        · next hterm =>
            by_cases hp : status = OrderStatus.PROCESSING
            · exact absurd ⟨hp, hst⟩ hc
            · simp [hp, hst]
  · intro now status o hterm
    have hp : ¬ (status = OrderStatus.PROCESSING ∧ o.started_at = none) := by
      rintro ⟨rfl, -⟩
      simp at hterm
    simp [applyStatusUpdate, hp, hterm]
  · intro now status o hterm
    by_cases hp : status = OrderStatus.PROCESSING ∧ o.started_at = none
    · simp [applyStatusUpdate, hp]
    · simp [applyStatusUpdate, hp, hterm]
  · intro now order_id status store store' h
    unfold update_order_status at h
    split at h
    · cases h
    · have hs' : store' =
          store.map fun o =>
            if o.id = order_id then applyStatusUpdate now status o else o := by
        cases h; rfl
      subst hs'
      constructor
      · intro o hmem hid
        exact List.mem_map.2 ⟨o, hmem, by rw [if_pos hid]⟩
      · intro o hmem hid
        exact List.mem_map.2 ⟨o, hmem, by rw [if_neg hid]⟩

def c6Store : OrderStore :=
  [⟨1, OrderStatus.PENDING, 2, 0, 0, none, none⟩,
   ⟨2, OrderStatus.PROCESSING, 2, 0, 1, some 1, none⟩]

def c6Queue : QueueState := ⟨QueueStatus.RUNNING, [2], 5, c6Store⟩

theorem cancel_order_spec_witness :
    ((⟨1, OrderStatus.CANCELLED, 2, 0, 9, none, none⟩ : OrderModel) ∈
        (cancel_order 9 1 c6Store).1) ∧
    ((⟨2, OrderStatus.PROCESSING, 2, 0, 1, some 1, none⟩ : OrderModel) ∈
        (cancel_order 9 2 c6Store).1) ∧
    2 ∉ (OrderQueue.cancel_order 9 2 c6Queue).1.processing_orders :=
  ⟨cancel_order_spec.2.1 9 1 c6Store
     ⟨1, OrderStatus.PENDING, 2, 0, 0, none, none⟩ (by decide) rfl rfl,
   cancel_order_spec.2.2.1 9 2 c6Store
     ⟨2, OrderStatus.PROCESSING, 2, 0, 1, some 1, none⟩ (by decide) (by decide),
   (cancel_order_spec.2.2.2 9 2 c6Queue).2.2⟩

def c7Order : OrderModel := ⟨5, OrderStatus.PROCESSING, 2, 0, 1, some 1, none⟩

theorem update_order_status_timestamps_witness :
    (applyStatusUpdate 10 OrderStatus.FAILED c7Order).started_at = some 1 ∧
    (applyStatusUpdate 10 OrderStatus.PROCESSING
        ⟨6, OrderStatus.PENDING, 2, 0, 0, none, none⟩).started_at =
      (if OrderStatus.PROCESSING = OrderStatus.PROCESSING then some 10 else none) ∧
    (applyStatusUpdate 10 OrderStatus.FAILED c7Order).completed_at = some 10 ∧
    (applyStatusUpdate 10 OrderStatus.REQUIRES_HUMAN c7Order).completed_at =
      c7Order.completed_at ∧
    applyStatusUpdate 10 OrderStatus.FAILED c7Order ∈
      [(⟨5, OrderStatus.FAILED, 2, 0, 10, some 1, some 10⟩ : OrderModel)] ∧
    (claimRow 30 c7Order).started_at = some 30 :=
  ⟨update_order_status_timestamps.1 10 OrderStatus.FAILED c7Order 1 rfl,
   update_order_status_timestamps.2.1 10 OrderStatus.PROCESSING
     ⟨6, OrderStatus.PENDING, 2, 0, 0, none, none⟩ rfl,
   update_order_status_timestamps.2.2.1 10 OrderStatus.FAILED c7Order (by decide),
   update_order_status_timestamps.2.2.2.1 10 OrderStatus.REQUIRES_HUMAN c7Order
     (by decide),
   (update_order_status_timestamps.2.2.2.2.1 10 5 OrderStatus.FAILED c7Store
       [⟨5, OrderStatus.FAILED, 2, 0, 10, some 1, some 10⟩] rfl).1
     c7Order (by decide) rfl,
   update_order_status_timestamps.2.2.2.2.2 30 c7Order⟩

theorem dictInsert_length (k : Nat) (l : List Nat) :
    (dictInsert k l).length ≤ l.length + 1 := by
  unfold dictInsert
  split
  · omega
  · simp

/-- C5: one iteration of the dispatcher loop keeps the active-task map
within the `max_concurrent` ceiling (a task is added only when the loop is
`RUNNING` and strictly below the ceiling, and adding one to a map of size
`< max_concurrent` stays `≤ max_concurrent`); the ceiling itself is
unchanged by the step; and when the loop is not `RUNNING` or is at
capacity, the step claims nothing: the store is untouched and no new task
id appears. -/
theorem process_queue_step_bound :
    (∀ now done q, q.processing_orders.length ≤ q.max_concurrent →
       (process_queue_step now done q).processing_orders.length ≤
         q.max_concurrent) ∧
    (∀ now done q,
       (process_queue_step now done q).max_concurrent = q.max_concurrent) ∧
    (∀ now done q,
       ¬ (q.status = QueueStatus.RUNNING ∧
            q.processing_orders.length < q.max_concurrent) →
       (process_queue_step now done q).store = q.store ∧
       ∀ k ∈ (process_queue_step now done q).processing_orders,
         k ∈ q.processing_orders) := by
  refine ⟨?_, ?_, ?_⟩
  · intro now done q hlen
    unfold process_queue_step
    by_cases hg : q.status = QueueStatus.RUNNING ∧
        q.processing_orders.length < q.max_concurrent
    · rw [if_pos hg]
      rcases hnext : get_next_order now q.store with ⟨oo, store'⟩
      cases oo with
      | some order =>
        dsimp only
        exact le_trans (List.length_filter_le _ _)
          (le_trans (dictInsert_length order.id q.processing_orders) hg.2)
      | none =>
        dsimp only
        exact le_trans (List.length_filter_le _ _) hlen
    · rw [if_neg hg]
      exact le_trans (List.length_filter_le _ _) hlen
  · intro now done q
    unfold process_queue_step
    by_cases hg : q.status = QueueStatus.RUNNING ∧
        q.processing_orders.length < q.max_concurrent
    · rw [if_pos hg]
      rcases hnext : get_next_order now q.store with ⟨oo, store'⟩
      cases oo <;> rfl
    · rw [if_neg hg]
  · intro now done q hg
    unfold process_queue_step
    rw [if_neg hg]
    exact ⟨rfl, fun k hk => List.mem_of_mem_filter hk⟩

/-- A queue at capacity (`max_concurrent = 2`, two active tasks) with a
pending order available. -/
def c5Queue : QueueState :=
  ⟨QueueStatus.RUNNING, [7, 8], 2,
   [⟨9, OrderStatus.PENDING, 4, 0, 0, none, none⟩]⟩

theorem process_queue_step_bound_witness :
    (process_queue_step 50 (fun _ => false) c5Queue).processing_orders.length ≤ 2 ∧
    (process_queue_step 50 (fun _ => false) c5Queue).store = c5Queue.store :=
  ⟨process_queue_step_bound.1 50 (fun _ => false) c5Queue (by decide),
   (process_queue_step_bound.2.2 50 (fun _ => false) c5Queue (by decide)).1⟩

/-! ### `DatabaseManager.get_order_stats`

Numeric results are modelled in `ℚ`; the Python code computes them in
floating point, but the claim concerns which orders enter each aggregate
and the shape of the formulas, for which exact rationals are the
reference semantics. -/

/-- The slice of the stats dictionary the verified claims concern.  The
remaining keys (per-status counts, review queue, totals, today's count,
retailer breakdown) are independent counting queries. -/
structure OrderStats where
  completed : Nat
  failed : Nat
  avg_processing_time : ℚ
  success_rate : ℚ
deriving Repr

/-- The query feeding the average: `(started_at, completed_at)` of the
orders with `status == COMPLETED` and both timestamps non-NULL. -/
def completed_orders_with_times (store : OrderStore) : List (Nat × Nat) :=
  store.filterMap fun o =>
    if o.status = OrderStatus.COMPLETED then
      match o.started_at, o.completed_at with
      | some s, some c => some (s, c)
      | _, _ => none
    else none

/-- The accumulation loop of `get_order_stats`: for each pair, when
`completed_at > started_at`, the duration `completed_at - started_at` is
added to `total_time` and counted in `valid_orders` when
`0 < duration <= 7200`; durations above 7200 s (and non-positive ones) are
skipped.  (Rendered by structural recursion; addition and counting are
order-independent.) -/
def validDurationsLoop : List (Nat × Nat) → Nat × Nat
  | [] => (0, 0)
  | (s, c) :: rest =>
    let (total_time, valid_orders) := validDurationsLoop rest
    if s < c then
      let duration := c - s
      if 0 < duration ∧ duration ≤ 7200 then
        (total_time + duration, valid_orders + 1)
      else (total_time, valid_orders)
    else (total_time, valid_orders)

/-- Python's `round(x, 2)`.  (Python rounds half to even while `round`
rounds half up; the two differ only on exact ties of the third decimal.
The theorem below applies the same rounding on both sides, so the
tie-breaking convention plays no role in it.) -/
def round2 (x : ℚ) : ℚ := (round (x * 100) : ℚ) / 100

def completedCount (store : OrderStore) : Nat :=
  (store.filter (fun o => o.status = OrderStatus.COMPLETED)).length

def failedCount (store : OrderStore) : Nat :=
  (store.filter (fun o => o.status = OrderStatus.FAILED)).length

/-- Method `DatabaseManager.get_order_stats`, restricted to the aggregates under
claim: status counts for `completed`/`failed`; the average processing time
over the valid durations, rounded to two decimals (`avg_time` is `0` when
no valid duration exists — the code's guard `if completed_orders_with_times`
composed with `valid_orders > 0` collapses to the latter); and the success
rate `completed / (completed + failed) * 100` with `0` when no order has
finished. -/
def get_order_stats (store : OrderStore) : OrderStats :=
  let completed := completedCount store
  let failed := failedCount store
  let (total_time, valid_orders) :=
    validDurationsLoop (completed_orders_with_times store)
  let avg_time : ℚ :=
    if valid_orders > 0 then (total_time : ℚ) / valid_orders else 0
  let total_finished := completed + failed
  { completed := completed
    failed := failed
    avg_processing_time := round2 avg_time
    success_rate :=
      if total_finished > 0 then
        (completed : ℚ) / total_finished * 100
      else 0 }

/-- The durations the claim admits into the average: orders with status
`COMPLETED`, both timestamps present, and a duration that is strictly
positive and at most 7200 seconds. -/
def claimDurations (store : OrderStore) : List Nat :=
  store.filterMap fun o =>
    match o.status, o.started_at, o.completed_at with
    | OrderStatus.COMPLETED, some s, some c =>
      if 0 < c - s ∧ c - s ≤ 7200 then some (c - s) else none
    | _, _, _ => none

/-- The valid durations among a list of `(started_at, completed_at)`
pairs. -/
def pairDurations (l : List (Nat × Nat)) : List Nat :=
  l.filterMap fun p =>
    if 0 < p.2 - p.1 ∧ p.2 - p.1 ≤ 7200 then some (p.2 - p.1) else none

theorem validDurationsLoop_eq (l : List (Nat × Nat)) :
    validDurationsLoop l = ((pairDurations l).sum, (pairDurations l).length) := by
  induction l with
  | nil => rfl
  | cons p rest ih =>
    obtain ⟨s, c⟩ := p
    simp only [validDurationsLoop, pairDurations, List.filterMap_cons, ih]
    by_cases hd : 0 < c - s ∧ c - s ≤ 7200
    · have hsc : s < c := by omega
      simp only [if_pos hd, if_pos hsc, List.sum_cons, List.length_cons]
      rw [Nat.add_comm]
    · simp only [if_neg hd]
      by_cases hsc : s < c
      · simp only [if_pos hsc, if_neg hd]
      · simp only [if_neg hsc]

theorem claimDurations_eq (store : OrderStore) :
    claimDurations store = pairDurations (completed_orders_with_times store) := by
  unfold claimDurations pairDurations completed_orders_with_times
  rw [List.filterMap_filterMap]
  congr 1
  funext o
  cases hst : o.status <;>
    cases hsa : o.started_at <;>
      cases hca : o.completed_at <;>
        simp

/-- Store with one completed and one failed order (both with valid
durations). -/
def c9Store : OrderStore :=
  [⟨1, OrderStatus.COMPLETED, 2, 0, 100, some 0, some 100⟩,
   ⟨2, OrderStatus.FAILED, 2, 0, 50, some 0, some 50⟩]

/-- C9 (counterexample): with one completed and one failed order the code
reports `success_rate = 50` (a percentage), while the claimed formula
`completed / (completed + failed)` evaluates to `1/2`; the two differ. -/
theorem success_rate_is_percentage :
    (get_order_stats c9Store).success_rate = 50 ∧
    ((completedCount c9Store : ℚ) /
        ((completedCount c9Store : ℚ) + (failedCount c9Store : ℚ)) = 1 / 2) ∧
    (50 : ℚ) ≠ 1 / 2 := by
  refine ⟨?_, ?_, by norm_num⟩
  · show (if (1 : ℕ) + 1 > 0 then
        ((1 : ℕ) : ℚ) / (((1 : ℕ) + 1 : ℕ) : ℚ) * 100 else 0) = 50
    norm_num
  · show ((1 : ℕ) : ℚ) / (((1 : ℕ) : ℚ) + ((1 : ℕ) : ℚ)) = 1 / 2
    norm_num

/-- C9 (amended): `get_order_stats` reports the success rate as a
percentage — `100 * completed / (completed + failed)`, and `0` when no
order has completed or failed — and reports as average processing time the
mean (rounded to two decimals) of exactly the durations
`completed_at - started_at` of completed orders carrying both timestamps
whose duration is strictly positive and at most 7200 seconds; negative or
zero durations and durations above that ceiling are excluded, as are
orders of any other status or with a missing timestamp. -/
theorem get_order_stats_spec (store : OrderStore) :
    (get_order_stats store).success_rate =
      (if completedCount store + failedCount store = 0 then 0
       else 100 * (completedCount store : ℚ) /
              ((completedCount store : ℚ) + (failedCount store : ℚ))) ∧
    (get_order_stats store).avg_processing_time =
      round2 (if (claimDurations store).length = 0 then 0
              else ((claimDurations store).sum : ℚ) /
                     ((claimDurations store).length : ℚ)) := by
  constructor
  · show (if completedCount store + failedCount store > 0 then
            ((completedCount store : ℕ) : ℚ) /
              (((completedCount store + failedCount store : ℕ) : ℚ)) * 100
          else 0) = _
    by_cases h : completedCount store + failedCount store = 0
    · rw [if_pos h]
      rw [if_neg (by omega : ¬ completedCount store + failedCount store > 0)]
    · rw [if_neg h, if_pos (by omega : completedCount store + failedCount store > 0)]
      push_cast
      ring
  · show round2 (if (validDurationsLoop (completed_orders_with_times store)).2 > 0
          then ((validDurationsLoop (completed_orders_with_times store)).1 : ℚ) /
                 ((validDurationsLoop (completed_orders_with_times store)).2 : ℚ)
          else 0) = _
    rw [validDurationsLoop_eq, ← claimDurations_eq]
    by_cases h : (claimDurations store).length = 0
    · rw [if_pos h]
      rw [if_neg (by simp [h] : ¬ ((claimDurations store).sum,
          (claimDurations store).length).2 > 0)]
    · rw [if_neg h, if_pos (by simp [Nat.pos_of_ne_zero h] :
          ((claimDurations store).sum, (claimDurations store).length).2 > 0)]

/-! ## Automation agents (`backend/agents/nova_act_agent.py`,
`backend/agents/strands_agent.py`) -/

/-- Result dictionary of `process_order`, restricted to the fields the
claim concerns. -/
structure ProcessResult where
  success : Bool
  error : Option String
deriving DecidableEq, Repr

/-- The concurrency guard at the top of `process_order` (textually the
same in `NovaActAgent` and `StrandsAgent`): when the instance's
`_is_processing` flag is already set, the call performs no automation and
immediately returns a failed result carrying the explicit
already-processing error; when the flag is clear, the guard lets the body
run (`none`): the flag is set, the automation executes, and the `finally`
clause clears the flag again. -/
def process_order_guard (is_processing : Bool) : Option ProcessResult :=
  if is_processing then
    some { success := false,
           error := some "Another order is already being processed" }
  else none

/-- Event semantics of `process_order` calls on one agent instance.  A
configuration pairs the `_is_processing` flag with the number of
`process_order` bodies currently active on the instance.  `callRejected`
is a call arriving while the flag is set: it returns the failed result of
`process_order_guard` and enters no body.  `callEnter` is a call finding
the flag clear: it sets the flag and enters the body.  `callFinish` is a
body reaching its `finally`, which clears the flag. -/
inductive AgentStep : Bool × Nat → Bool × Nat → Prop where
  | callRejected (n : Nat) : AgentStep (true, n) (true, n)
  | callEnter (n : Nat) : AgentStep (false, n) (true, n + 1)
  | callFinish (n : Nat) : AgentStep (true, n + 1) (false, n)

/-- C4: a `process_order` call that finds `_is_processing` set returns a
`success = false` result with the explicit already-processing error and
runs no automation; consequently, starting from a fresh instance
(`_is_processing = false`, no active body), every reachable configuration
has at most one `process_order` body active. -/
theorem process_order_mutual_exclusion :
    (∀ b : Bool, b = true →
       process_order_guard b =
         some { success := false,
                error := some "Another order is already being processed" }) ∧
    (∀ s : Bool × Nat, Relation.ReflTransGen AgentStep (false, 0) s →
       s.2 ≤ 1) := by
  constructor
  · intro b hb
    rw [hb]
    rfl
  · have key : ∀ s : Bool × Nat, Relation.ReflTransGen AgentStep (false, 0) s →
        (s.1 = false → s.2 = 0) ∧ s.2 ≤ 1 := by
      intro s h
      induction h with
      | refl => exact ⟨fun _ => rfl, by omega⟩
      | tail hab hbc ih =>
        cases hbc with
        | callRejected n => exact ih
        | callEnter n =>
          have hn : n = 0 := ih.1 rfl
          subst hn
          exact ⟨(fun h => nomatch h), by omega⟩
        | callFinish n =>
          have h2 := ih.2
          exact ⟨fun _ => by omega, by omega⟩
    intro s h
    exact (key s h).2

theorem process_order_mutual_exclusion_witness :
    process_order_guard true =
      some { success := false,
             error := some "Another order is already being processed" } ∧
    ((true, 1) : Bool × Nat).2 ≤ 1 :=
  ⟨process_order_mutual_exclusion.1 true rfl,
   process_order_mutual_exclusion.2 (true, 1)
     (Relation.ReflTransGen.single (AgentStep.callEnter 0))⟩

/-! ## Browser session service (`backend/services/browser_service.py`)

The Session Registry is the pair of in-memory maps `active_sessions`
(session id → Session Handle) and `active_clients` (session id → browser
client); both are dicts with unique keys, rendered as association /
key lists.  External resources (Playwright browser, Playwright runtime,
browser client) are opaque; what matters to the claims is only how their
release calls behave, which a `CleanupEnv` of stub outcomes captures.
The Order Store consulted by the protection rule is abstracted to the
lookup `db : String → Option OrderStatus` (`db_manager.get_order(id)`;
`none` covers a missing database manager, an unknown id and a failed
lookup alike, all of which the code treats as unprotected). -/

/-- A registered Session Handle, restricted to the fields the embedded
operations touch.  `status` is the Python string field (`"active"`,
`"terminated"`, …); `resolution` is the `{width, height}` dict. -/
structure SessionHandle where
  status : String
  last_accessed : Nat
  resolution : Int × Int
  has_browser : Bool
  has_playwright : Bool
  has_browser_client : Bool
deriving DecidableEq, Repr

/-- The registry maps of `BrowserService`. -/
structure BrowserServiceState where
  active_sessions : List (String × SessionHandle)
  active_clients : List String
deriving DecidableEq, Repr

/-- Lookup `self.active_sessions.get(session_id)`. -/
def lookupSession (session_id : String) :
    List (String × SessionHandle) → Option SessionHandle
  | [] => none
  | (k, v) :: rest =>
    if k = session_id then some v else lookupSession session_id rest

/-- Deletion `del self.active_sessions[session_id]` (unique keys). -/
def removeSession (session_id : String)
    (l : List (String × SessionHandle)) : List (String × SessionHandle) :=
  l.filter (fun p => p.1 ≠ session_id)

/-- In-place mutation of the handle stored under `session_id`. -/
def updateSession (session_id : String) (session : SessionHandle)
    (l : List (String × SessionHandle)) : List (String × SessionHandle) :=
  l.map (fun p => if p.1 = session_id then (p.1, session) else p)

/-- Outcome of a call into an external resource: it returns normally,
raises an exception, or never returns. -/
inductive CallOutcome where
  | ok
  | raises
  | hangs
deriving DecidableEq, Repr

/-- Stub behaviours of the resources released during one cleanup. -/
structure CleanupEnv where
  browser_close : CallOutcome
  playwright_stop : CallOutcome
  client_stop : CallOutcome
deriving DecidableEq, Repr

/-- Method `BrowserService.cleanup_session(session_id, force)`.  The result is
`none` when the call never returns, and otherwise the new registry state,
the detached Session Handle as the cleanup left it (when one was removed)
and the accumulated `cleanup_errors` list.

Faithful behaviour:
* `if not force` and the Order Store reports the corresponding order as
  `requires_human`, return immediately (protection rule: nothing touched);
* for a registered session, `browser.close()` and `playwright.stop()` are
  each guarded by `asyncio.wait_for(..., timeout=3.0)` with
  `TimeoutError`/`Exception` caught and only logged, so their outcomes
  (`env.browser_close`, `env.playwright_stop`) can neither block nor abort
  the cleanup and add no `cleanup_errors` entry;
* `session.browser_client.stop()` is a plain synchronous call with no
  timeout: if it hangs the whole cleanup hangs (`none`); if it raises, the
  exception is caught into `cleanup_errors` — but then the statement
  `session.status = "terminated"` in the same `try` block is skipped;
* the handle is then deleted from `active_sessions` and the id dropped
  from `active_clients`; exceptions stay caught, nothing re-raises. -/
def cleanup_session (db : String → Option OrderStatus) (env : CleanupEnv)
    (session_id : String) (force : Bool) (st : BrowserServiceState) :
    Option (BrowserServiceState × Option SessionHandle × List String) :=
  if ¬force ∧ db session_id = some OrderStatus.REQUIRES_HUMAN then
    some (st, none, [])
  else
    match lookupSession session_id st.active_sessions with
    | some session =>
      if session.has_browser_client ∧ env.client_stop = CallOutcome.hangs then
        none
      else
        let session' :=
          if session.has_browser_client ∧ env.client_stop = CallOutcome.raises
          then session
          else { session with status := "terminated" }
        let cleanup_errors :=
          if session.has_browser_client ∧ env.client_stop = CallOutcome.raises
          then ["Browser client cleanup: stop raised"]
          else ([] : List String)
        some ({ active_sessions := removeSession session_id st.active_sessions,
                active_clients :=
                  st.active_clients.filter (fun k => k ≠ session_id) },
              some session', cleanup_errors)
    | none =>
      some ({ st with
                active_clients :=
                  st.active_clients.filter (fun k => k ≠ session_id) },
            none, [])

/-- The expiry sweep of `cleanup_expired_sessions`: the ids of the
sessions that are not protected (Order Store does not report
`requires_human`) and have not been accessed for more than 1800 seconds. -/
def expired_sessions (now : Nat) (db : String → Option OrderStatus)
    (st : BrowserServiceState) : List String :=
  (st.active_sessions.filter (fun p =>
     ¬ db p.1 = some OrderStatus.REQUIRES_HUMAN ∧
       now - p.2.last_accessed > 1800)).map (fun p => p.1)

/-- The cleanup loop at the end of `cleanup_expired_sessions`:
`cleanup_session(session_id)` (with `force` at its default `False`) for
each expired id in turn; a hanging cleanup hangs the whole sweep. -/
def cleanup_sessions_list (db : String → Option OrderStatus)
    (envOf : String → CleanupEnv) :
    List String → BrowserServiceState → Option BrowserServiceState
  | [], st => some st
  | sid :: rest, st =>
    match cleanup_session db (envOf sid) sid false st with
    | none => none
    | some (st', _, _) => cleanup_sessions_list db envOf rest st'

/-- Method `BrowserService.cleanup_expired_sessions`. -/
def cleanup_expired_sessions (now : Nat) (db : String → Option OrderStatus)
    (envOf : String → CleanupEnv) (st : BrowserServiceState) :
    Option BrowserServiceState :=
  cleanup_sessions_list db envOf (expired_sessions now db st) st

/-- Result dict of the service methods (only the
`success` flag is under claim). -/
structure ServiceResult where
  success : Bool
deriving DecidableEq, Repr

/-- Method `BrowserService.change_browser_resolution(session_id, width, height)`.
The method performs no bounds validation: for a registered session it
unconditionally stores the requested resolution and refreshes
`last_accessed`, *then* attempts `browser_client.set_viewport_size`
(outcome `set_viewport_ok`; an exception there yields a failed result but
the stored resolution has already been overwritten).  Only an unknown
session id fails without touching anything. -/
def change_browser_resolution (now : Nat) (session_id : String)
    (width height : Int) (set_viewport_ok : Bool)
    (st : BrowserServiceState) : BrowserServiceState × ServiceResult :=
  match lookupSession session_id st.active_sessions with
  | none => (st, { success := false })
  | some session =>
    let session' :=
      { session with resolution := (width, height), last_accessed := now }
    let st' :=
      { st with active_sessions :=
          updateSession session_id session' st.active_sessions }
    if set_viewport_ok then (st', { success := true })
    else (st', { success := false })

/-- The HTTP route handler
`POST /api/orders/{order_id}/change-resolution` in `backend/app.py`:
rejects width/height outside 640–3840 × 480–2160 with a 400 error *before*
calling the service; a service failure afterwards surfaces as a 500. -/
def change_resolution_route (now : Nat) (order_id : String)
    (width height : Int) (set_viewport_ok : Bool)
    (st : BrowserServiceState) :
    BrowserServiceState × Except Nat ServiceResult :=
  if width < 640 ∨ width > 3840 ∨ height < 480 ∨ height > 2160 then
    (st, Except.error 400)
  else
    let (st', result) :=
      change_browser_resolution now order_id width height set_viewport_ok st
    if result.success then (st', Except.ok result)
    else (st', Except.error 500)

/-- Result of `get_live_view_url` (only the `url` field is under claim). -/
structure LiveViewResult where
  url : Option String
deriving DecidableEq, Repr

/-- Method `BrowserService.get_live_view_url(session_id, expires)`.  For a
session registered in `active_sessions`, `last_accessed` is refreshed to
the current time *before* URL generation is attempted; `gen_url` stands
for whatever the browser client's three generation fallbacks produce
(`none` when all fail).  An id only in `active_clients` goes through a
temporary session object without a `last_accessed` attribute, so nothing
is refreshed; an unknown id yields an error result. -/
def get_live_view_url (now : Nat) (session_id : String)
    (gen_url : Option String) (st : BrowserServiceState) :
    BrowserServiceState × LiveViewResult :=
  match lookupSession session_id st.active_sessions with
  | some session =>
    let session' := { session with last_accessed := now }
    let st' :=
      { st with active_sessions :=
          updateSession session_id session' st.active_sessions }
    (st', { url := gen_url })
  | none =>
    if session_id ∈ st.active_clients then (st, { url := gen_url })
    else (st, { url := none })

/-! ### Claims about the browser session service -/

theorem cleanup_session_keeps_protected
    (db : String → Option OrderStatus) (env : CleanupEnv)
    (sid other_id : String) (h : SessionHandle)
    (st st' : BrowserServiceState) (hs : Option SessionHandle)
    (errs : List String)
    (hprot : db other_id = some OrderStatus.REQUIRES_HUMAN)
    (hmem : (other_id, h) ∈ st.active_sessions)
    (hc : cleanup_session db env sid false st = some (st', hs, errs)) :
    (other_id, h) ∈ st'.active_sessions := by
  unfold cleanup_session at hc
  split at hc
  · simp only [Option.some.injEq, Prod.mk.injEq] at hc
    rw [← hc.1]
    exact hmem
  · next hp =>
    have hsid : ¬ db sid = some OrderStatus.REQUIRES_HUMAN := by
      intro hd
      exact hp ⟨by simp, hd⟩
    have hne : other_id ≠ sid := by
      intro hEq
      rw [hEq] at hprot
      exact hsid hprot
    split at hc
    · split at hc
      · exact absurd hc (by simp)
      · simp only [Option.some.injEq, Prod.mk.injEq] at hc
        rw [← hc.1]
        show (other_id, h) ∈ removeSession sid st.active_sessions
        exact List.mem_filter.2 ⟨hmem, by simpa using hne⟩
    · simp only [Option.some.injEq, Prod.mk.injEq] at hc
      rw [← hc.1]
      exact hmem

theorem cleanup_sessions_list_keeps_protected
    (db : String → Option OrderStatus) (envOf : String → CleanupEnv)
    (sid : String) (h : SessionHandle)
    (hprot : db sid = some OrderStatus.REQUIRES_HUMAN) :
    ∀ (ids : List String) (st st' : BrowserServiceState),
      (sid, h) ∈ st.active_sessions →
      cleanup_sessions_list db envOf ids st = some st' →
      (sid, h) ∈ st'.active_sessions := by
  intro ids
  induction ids with
  | nil =>
    intro st st' hmem hc
    simp only [cleanup_sessions_list, Option.some.injEq] at hc
    rw [← hc]
    exact hmem
  | cons i rest ih =>
    intro st st' hmem hc
    simp only [cleanup_sessions_list] at hc
    split at hc
    · exact absurd hc (by simp)
    · next st2 hs errs hEq =>
      exact ih st2 st'
        (cleanup_session_keeps_protected db (envOf i) i sid h st st2 hs errs
          hprot hmem hEq) hc

/-- C3: with `force = false`, `cleanup_session` on a session whose
corresponding order has status `requires_human` is a silent no-op: it
completes without raising, the registry maps are exactly as before (the
handle is still registered, its status untouched — in particular not
`terminated` — and no resource was released, since the call returns before
reaching any release), and the error list is empty; the same protection
makes `cleanup_expired_sessions` leave such a session registered however
stale its `last_accessed` is. -/
theorem cleanup_protected_noop :
    (∀ (db : String → Option OrderStatus) env session_id st,
       db session_id = some OrderStatus.REQUIRES_HUMAN →
       cleanup_session db env session_id false st = some (st, none, [])) ∧
    (∀ now (db : String → Option OrderStatus) envOf st st' session_id h,
       db session_id = some OrderStatus.REQUIRES_HUMAN →
       (session_id, h) ∈ st.active_sessions →
       cleanup_expired_sessions now db envOf st = some st' →
       (session_id, h) ∈ st'.active_sessions) := by
  constructor
  · intro db env session_id st hprot
    unfold cleanup_session
    rw [if_pos ⟨by simp, hprot⟩]
  · intro now db envOf st st' session_id h hprot hmem hc
    exact cleanup_sessions_list_keeps_protected db envOf session_id h hprot
      (expired_sessions now db st) st st' hmem hc

/-- A registry holding one stale protected session. -/
def c3State : BrowserServiceState :=
  ⟨[("s1", ⟨"active", 0, (1280, 720), true, true, true⟩)], ["s1"]⟩

def c3Db : String → Option OrderStatus := fun _ => some OrderStatus.REQUIRES_HUMAN

theorem cleanup_protected_noop_witness :
    cleanup_session c3Db ⟨CallOutcome.ok, CallOutcome.ok, CallOutcome.ok⟩
        "s1" false c3State = some (c3State, none, []) ∧
    ("s1", (⟨"active", 0, (1280, 720), true, true, true⟩ : SessionHandle)) ∈
      c3State.active_sessions :=
  ⟨cleanup_protected_noop.1 c3Db ⟨CallOutcome.ok, CallOutcome.ok, CallOutcome.ok⟩
     "s1" c3State rfl,
   cleanup_protected_noop.2 5000 c3Db (fun _ => ⟨CallOutcome.ok, CallOutcome.ok,
       CallOutcome.ok⟩) c3State c3State "s1"
     ⟨"active", 0, (1280, 720), true, true, true⟩ rfl (by simp [c3State])
     (by rfl)⟩

theorem lookupSession_none_not_mem {sid : String}
    {l : List (String × SessionHandle)}
    (h : lookupSession sid l = none) : ∀ p ∈ l, p.1 ≠ sid := by
  induction l with
  | nil => intro p hp; simp at hp
  | cons q rest ih =>
    intro p hp
    simp only [lookupSession] at h
    split at h
    · exact absurd h (by simp)
    · next hq =>
      rcases List.mem_cons.1 hp with rfl | hp'
      · exact hq
      · exact ih h p hp'

/-- A session with every sub-resource attached, registered in both maps. -/
def c2Handle : SessionHandle := ⟨"active", 0, (1280, 720), true, true, true⟩

def c2State : BrowserServiceState := ⟨[("s1", c2Handle)], ["s1"]⟩

/-- Browser and Playwright release fine; the browser client's synchronous
`stop()` never returns. -/
def c2HangEnv : CleanupEnv := ⟨CallOutcome.ok, CallOutcome.ok, CallOutcome.hangs⟩

/-- C2 (counterexample): with a browser client whose synchronous `stop()`
never returns, `cleanup_session(session_id, force=True)` itself never
returns — `stop()` is called outside any timeout and the operation carries
no outer timeout — so the still-registered Session Handle is never removed
from the registry, contradicting the claim that removal is bounded by an
outer timeout on the whole operation. -/
theorem cleanup_session_no_outer_timeout :
    cleanup_session (fun _ => none) c2HangEnv "s1" true c2State = none ∧
    lookupSession "s1" c2State.active_sessions = some c2Handle ∧
    "s1" ∈ c2State.active_clients :=
  ⟨rfl, rfl, by simp [c2State]⟩

/-- Post-condition of a completing forced cleanup: the call returns, the
id is gone from both registry maps, release failures surface only in the
returned `cleanup_errors` list (never as an exception), and the detached
handle is marked `terminated` exactly when the browser-client stop did not
raise (a raising stop skips the `session.status = "terminated"`
statement, though the handle is removed all the same). -/
def CleanupForcePost (db : String → Option OrderStatus) (env : CleanupEnv)
    (session_id : String) (st : BrowserServiceState) : Prop :=
  ∃ st' hs errs,
    cleanup_session db env session_id true st = some (st', hs, errs) ∧
    (∀ p ∈ st'.active_sessions, p.1 ≠ session_id) ∧
    session_id ∉ st'.active_clients ∧
    (∀ session, lookupSession session_id st.active_sessions = some session →
       (session.has_browser_client = true ∧
          env.client_stop = CallOutcome.raises →
          hs = some session ∧
            errs = ["Browser client cleanup: stop raised"]) ∧
       (¬ (session.has_browser_client = true ∧
             env.client_stop = CallOutcome.raises) →
          hs = some { session with status := "terminated" } ∧ errs = []))

/-- C2 (amended): provided the browser client's synchronous `stop()`
returns (normally or by raising) — the Playwright browser close and
Playwright stop are each under their own 3-second timeout and cannot block
or abort the cleanup whatever they do — `cleanup_session(id, force=True)`
always completes and removes the Session Handle from both registry maps;
sub-resource failures are recorded in the error list and never re-raised.
There is, however, no outer timeout on the whole operation (a hanging
browser-client stop hangs it, see the counterexample), and a raising
browser-client stop leaves the detached handle's status unset to
`terminated` even though the handle is removed from the maps. -/
theorem cleanup_force_removes (db : String → Option OrderStatus)
    (env : CleanupEnv) (session_id : String) (st : BrowserServiceState)
    (hnohang : env.client_stop ≠ CallOutcome.hangs) :
    CleanupForcePost db env session_id st := by
  unfold CleanupForcePost cleanup_session
  rw [if_neg (by simp)]
  cases hlook : lookupSession session_id st.active_sessions with
  | some session =>
    dsimp only
    rw [if_neg (fun hcon => hnohang hcon.2)]
    by_cases hcase : session.has_browser_client = true ∧
        env.client_stop = CallOutcome.raises
    · rw [if_pos hcase, if_pos hcase]
      refine ⟨_, _, _, rfl, ?_, ?_, ?_⟩
      · intro p hp
        have hp2 : p ∈ st.active_sessions.filter
            (fun q => q.1 ≠ session_id) := hp
        exact of_decide_eq_true (List.mem_filter.1 hp2).2
      · intro hmem
        have hm2 : session_id ∈
            st.active_clients.filter (fun k => k ≠ session_id) := hmem
        have := List.of_mem_filter hm2
        simp at this
      · intro s hs
        cases hs
        exact ⟨fun _ => ⟨rfl, rfl⟩, fun hno => absurd hcase hno⟩
    · rw [if_neg hcase, if_neg hcase]
      refine ⟨_, _, _, rfl, ?_, ?_, ?_⟩
      · intro p hp
        have hp2 : p ∈ st.active_sessions.filter
            (fun q => q.1 ≠ session_id) := hp
        exact of_decide_eq_true (List.mem_filter.1 hp2).2
      · intro hmem
        have hm2 : session_id ∈
            st.active_clients.filter (fun k => k ≠ session_id) := hmem
        have := List.of_mem_filter hm2
        simp at this
      · intro s hs
        cases hs
        exact ⟨fun hyes => absurd hyes hcase, fun _ => ⟨rfl, rfl⟩⟩
  | none =>
    dsimp only
    refine ⟨_, _, _, rfl, ?_, ?_, ?_⟩
    · exact lookupSession_none_not_mem hlook
    · intro hmem
      have := List.of_mem_filter hmem
      simp at this
    · intro s hs
      cases hs

theorem cleanup_force_removes_witness :
    CleanupForcePost (fun _ => none)
      ⟨CallOutcome.ok, CallOutcome.ok, CallOutcome.raises⟩ "s1" c2State :=
  cleanup_force_removes (fun _ => none)
    ⟨CallOutcome.ok, CallOutcome.ok, CallOutcome.raises⟩ "s1" c2State
    (by decide)

theorem lookupSession_updateSession (sid : String) (v : SessionHandle) :
    ∀ (l : List (String × SessionHandle)) (s : SessionHandle),
      lookupSession sid l = some s →
      lookupSession sid (updateSession sid v l) = some v := by
  intro l
  induction l with
  | nil => intro s hs; simp [lookupSession] at hs
  | cons q rest ih =>
    intro s hs
    obtain ⟨k, hv⟩ := q
    by_cases hk : k = sid
    · have h1 : updateSession sid v ((k, hv) :: rest) =
          (k, v) :: updateSession sid v rest := by
        simp only [updateSession, List.map_cons]
        rw [if_pos hk]
      rw [h1]
      simp only [lookupSession]
      rw [if_pos hk]
    · have h1 : updateSession sid v ((k, hv) :: rest) =
          (k, hv) :: updateSession sid v rest := by
        simp only [updateSession, List.map_cons]
        rw [if_neg hk]
      simp only [lookupSession] at hs
      rw [if_neg hk] at hs
      rw [h1]
      simp only [lookupSession]
      rw [if_neg hk]
      exact ih s hs

theorem change_browser_resolution_updates
    (now : Nat) (oid : String) (w h : Int) (ok : Bool)
    (st : BrowserServiceState) (session : SessionHandle)
    (hlook : lookupSession oid st.active_sessions = some session) :
    (change_browser_resolution now oid w h ok st).1 =
      { st with active_sessions :=
          (updateSession oid
            ({ session with resolution := (w, h), last_accessed := now })
            st.active_sessions) } := by
  unfold change_browser_resolution
  rw [hlook]
  dsimp only
  cases ok <;> rfl

/-- A registry with one session at resolution `1280 × 720`. -/
def c8State : BrowserServiceState :=
  ⟨[("s1", ⟨"active", 0, (1280, 720), false, false, true⟩)], []⟩

/-- C8 (counterexample): `BrowserService.change_browser_resolution`
performs no bounds check — asked for `10000 × 10000` (far outside
640–3840 × 480–2160) on a registered session it reports success and
stores the out-of-range resolution, instead of failing and leaving the
stored resolution unchanged as the claim states. -/
theorem change_browser_resolution_unvalidated :
    (change_browser_resolution 5 "s1" 10000 10000 true c8State).2.success = true ∧
    lookupSession "s1"
        (change_browser_resolution 5 "s1" 10000 10000 true c8State).1.active_sessions =
      some ⟨"active", 5, (10000, 10000), false, false, true⟩ :=
  ⟨rfl, rfl⟩

/-- C8 (amended): the 640–3840 × 480–2160 bounds check lives in the HTTP
route handler (`app.py`, `POST .../change-resolution`), not in the
service: the route rejects an out-of-range width or height with a 400
error before the service is invoked, so the registry — and the stored
resolution — is untouched; an in-range request reaches
`change_browser_resolution`, which stores the requested resolution for
the registered session (the service itself never bounds-checks, see the
counterexample). -/
theorem change_resolution_route_bounds :
    (∀ now oid (w h : Int) ok st,
       (w < 640 ∨ w > 3840 ∨ h < 480 ∨ h > 2160) →
       change_resolution_route now oid w h ok st = (st, Except.error 400)) ∧
    (∀ now oid (w h : Int) ok st session,
       ¬ (w < 640 ∨ w > 3840 ∨ h < 480 ∨ h > 2160) →
       lookupSession oid st.active_sessions = some session →
       lookupSession oid
           (change_resolution_route now oid w h ok st).1.active_sessions =
         some { session with resolution := (w, h), last_accessed := now }) := by
  constructor
  · intro now oid w h ok st hbad
    unfold change_resolution_route
    rw [if_pos hbad]
  · intro now oid w h ok st session hin hlook
    have hstate : (change_resolution_route now oid w h ok st).1 =
        (change_browser_resolution now oid w h ok st).1 := by
      unfold change_resolution_route
      rw [if_neg hin]
      rcases hc : change_browser_resolution now oid w h ok st with ⟨st2, r⟩
      dsimp only
      split <;> rfl
    rw [hstate, change_browser_resolution_updates now oid w h ok st session hlook]
    exact lookupSession_updateSession oid _ st.active_sessions session hlook

theorem change_resolution_route_bounds_witness :
    change_resolution_route 5 "s1" 10000 10000 true c8State =
      (c8State, Except.error 400) ∧
    lookupSession "s1"
        (change_resolution_route 5 "s1" 1920 1080 true c8State).1.active_sessions =
      some ⟨"active", 5, (1920, 1080), false, false, true⟩ :=
  ⟨change_resolution_route_bounds.1 5 "s1" 10000 10000 true c8State
     (by norm_num),
   change_resolution_route_bounds.2 5 "s1" 1920 1080 true c8State
     ⟨"active", 0, (1280, 720), false, false, true⟩ (by norm_num) rfl⟩

/-- C10: for a session registered in `active_sessions`,
`get_live_view_url` refreshes the session's `last_accessed` to the
current time (whatever the URL generation then yields), and since the
expiry sweep only collects unprotected sessions whose `last_accessed`
lies more than 1800 seconds in the past, a live-view query keeps the
session out of every sweep taken within the following 1800 seconds. -/
theorem get_live_view_url_refreshes :
    ∀ now session_id gen_url st session,
      lookupSession session_id st.active_sessions = some session →
      lookupSession session_id
          (get_live_view_url now session_id gen_url st).1.active_sessions =
        some { session with last_accessed := now } ∧
      (∀ later (db : String → Option OrderStatus), later ≤ now + 1800 →
         session_id ∉ expired_sessions later db
           (get_live_view_url now session_id gen_url st).1) := by
  intro now session_id gen_url st session hlook
  have hstate : (get_live_view_url now session_id gen_url st).1 =
      { st with active_sessions :=
          (updateSession session_id ({ session with last_accessed := now })
            st.active_sessions) } := by
    unfold get_live_view_url
    rw [hlook]
  constructor
  · rw [hstate]
    exact lookupSession_updateSession session_id _ st.active_sessions session hlook
  · intro later db hlater hcon
    rw [hstate] at hcon
    simp only [expired_sessions, List.mem_map] at hcon
    obtain ⟨p, hpf, hp1⟩ := hcon
    have hpmem := (List.mem_filter.1 hpf).1
    have hpcond := of_decide_eq_true (List.mem_filter.1 hpf).2
    have hpmem2 : p ∈ updateSession session_id
        { session with last_accessed := now } st.active_sessions := hpmem
    obtain ⟨q, _, hq⟩ := List.mem_map.1 hpmem2
    have hpv : p.2 = { session with last_accessed := now } := by
      by_cases hq1 : q.1 = session_id
      · rw [if_pos hq1] at hq
        rw [← hq]
      · rw [if_neg hq1] at hq
        rw [← hq] at hp1
        exact absurd hp1 hq1
    rw [hpv] at hpcond
    have : later - now > 1800 := hpcond.2
    omega

theorem get_live_view_url_refreshes_witness :
    lookupSession "s1"
        (get_live_view_url 100 "s1" (some "https://live") c3State).1.active_sessions =
      some ⟨"active", 100, (1280, 720), true, true, true⟩ ∧
    "s1" ∉ expired_sessions 1900 (fun _ => none)
        (get_live_view_url 100 "s1" (some "https://live") c3State).1 := by
  have h := get_live_view_url_refreshes 100 "s1" (some "https://live") c3State
    ⟨"active", 0, (1280, 720), true, true, true⟩ rfl
  exact ⟨h.1, h.2 1900 (fun _ => none) (by omega)⟩

end Drishti
